import Mathlib

/-!
Verification of `torch/onnx/_internal/torch_graph.py`.

This file gives a shallow embedding of the module's Python code and proves the
specification claims about it.  Conventions of the embedding:

* Python values that can appear as positional arguments or attribute values are
  modelled by the inductive type `PyVal`.  Tensors are modelled by their element
  count (`numel`) and whether their dtype is a floating-point type; element data
  and shape are abstracted away (no claim depends on them).  Floats are modelled
  by an integer surrogate payload: the claims never perform float arithmetic.
* Exceptions are modelled by `Except PyErr`.  `PyErr.valueError` carries the
  message string the Python code raises; `assertionError` carries a label naming
  the failed `assert`; `typeError` is used both for genuine `TypeError`s raised
  by the interpreter (e.g. iterating a non-iterable, duplicate keyword argument)
  and, labelled as such, for failures inside native tensor constructors that
  this module merely calls (those never raise `ValueError`).
* The native graph (`_C.Graph`) is modelled by `GraphState`: a counter of
  allocated value ids, the list of inserted nodes, and the list of node ids on
  which the native shape/type-inference pass was invoked.  Attribute setters
  (`node.i_`, `node.f_`, ...) are modelled as appending the record
  `(setter-name, attribute-name, value)` to the node's attribute list.
* `kwargs` dicts are modelled as association lists `Kwargs`; Python dict keys
  are unique, and `sorted(kwargs.items())` on unique keys is the same as a
  stable sort by key, which is how `sortKwargs` models it.
* Truthiness (`pyTruthy`) is total; `bool(Tensor)` (which can raise at runtime)
  is abstracted as `true`.  This only affects the `aten` flag on absurd inputs
  and never produces a `ValueError` the code would not produce.
-/

/-- A Python exception, as raised by the modelled module. -/
inductive PyErr where
  | valueError (msg : String)
  | assertionError (label : String)
  | typeError (label : String)
  deriving Repr, DecidableEq

/-- A tensor, abstracted to its element count and dtype float-ness. -/
structure TensorV where
  numel : Nat
  isFloat : Bool
  deriving Repr, DecidableEq

/-- Python values appearing as attribute values / keyword arguments.
`listV` models any iterable that is neither a `str` nor a `torch.Tensor`
(the distinction `_is_onnx_list` draws). -/
inductive PyVal where
  | noneV
  | boolV (b : Bool)
  | intV (n : Int)
  | floatV (z : Int)
  | strV (s : String)
  | tensorV (t : TensorV)
  | listV (vs : List PyVal)
  deriving Repr

/-- `value is None` (Python identity test against `None`). -/
def PyVal.isNone : PyVal → Bool
  | .noneV => true
  | _ => false

/-- Python truthiness.  `bool(Tensor)` is abstracted as `true` (see header). -/
def pyTruthy : PyVal → Bool
  | .noneV => false
  | .boolV b => b
  | .intV n => n ≠ 0
  | .floatV z => z ≠ 0
  | .strV s => s ≠ ""
  | .tensorV _ => true
  | .listV vs => !vs.isEmpty

/-- `_is_onnx_list`: not a string, not a tensor, and iterable.  Of the modelled
value constructors only `listV` (an iterable that is neither `str` nor
`Tensor`) satisfies all three conjuncts: `strV` and `tensorV` are iterable but
explicitly excluded, the scalar constructors are not iterable. -/
def is_onnx_list : PyVal → Bool
  | .listV _ => true
  | _ => false

/-- `isinstance(value, numbers.Number)`: ints, bools and floats. -/
def isNumber : PyVal → Bool
  | .intV _ => true
  | .boolV _ => true
  | .floatV _ => true
  | _ => false

/-! ## The attribute-key pattern `_ATTR_PATTERN = re.compile("^(.+)_(([ifstgz])|(ty))$")`

Python `re` semantics modelled here:
* `.` matches any character except `'\n'`, so group 1 (the attribute name)
  cannot contain a newline;
* `$` matches at the end of the string **or just before a trailing newline**,
  so the key may carry one trailing `'\n'` after the type code;
* group 1 `(.+)` is greedy, so the name is the longest prefix admitting a
  recognized suffix; since no type code ends in a character that is also a
  type-code start preceded by `_`, the decomposition is in fact unique.

The match is computed on the reversed character list: a key matches iff
(after stripping one trailing newline) it ends in `'_'` followed by a
single-character code, or in `"_ty"`, with a non-empty newline-free rest. -/

/-- The single-character type codes of the class `[ifstgz]`. -/
def singleCode (c : Char) : Bool :=
  c = 'i' ∨ c = 'f' ∨ c = 's' ∨ c = 't' ∨ c = 'g' ∨ c = 'z'

/-- Match the suffix part of `_ATTR_PATTERN` on a reversed character list,
returning `(name, type code)` on success. -/
def matchRev : List Char → Option (List Char × String)
  | c1 :: c2 :: rest2 =>
    if c1 = 'y' ∧ c2 = 't' then
      match rest2 with
      | c3 :: rest => if c3 = '_' ∧ rest ≠ [] then some (rest.reverse, "ty") else none
      | [] => none
    else if c2 = '_' ∧ singleCode c1 then
      if rest2 = [] then none else some (rest2.reverse, String.mk [c1])
    else none
  | _ => none

/-- Strip the single trailing newline `$` may skip, on a reversed list. -/
def stripTrailingNl : List Char → List Char
  | [] => []
  | c :: rest => if c = '\n' then rest else c :: rest

/-- `_ATTR_PATTERN.match(key)` on the character list of the key:
`none` models a failed match, `some (name, kind)` models
`(m.group(1), m.group(2))`. -/
def attrMatchList (cs : List Char) : Option (List Char × String) :=
  let core := stripTrailingNl cs.reverse
  if '\n' ∈ core then none else matchRev core

/-- `_ATTR_PATTERN.match(key)` with the name as a `String`. -/
def attrPatternMatch (key : String) : Option (String × String) :=
  (attrMatchList key.data).map (fun p => (String.mk p.1, p.2))

example : attrPatternMatch "foo_i" = some ("foo", "i") := by decide
example : attrPatternMatch "dims_i" = some ("dims", "i") := by decide
example : attrPatternMatch "value_z" = some ("value", "z") := by decide
example : attrPatternMatch "value_ty" = some ("value", "ty") := by decide
example : attrPatternMatch "a_t_i" = some ("a_t", "i") := by decide
example : attrPatternMatch "inplace" = none := by decide
example : attrPatternMatch "aten" = none := by decide
example : attrPatternMatch "_i" = none := by decide
example : attrPatternMatch "x_y" = none := by decide
example : attrPatternMatch "x_ts" = none := by decide
example : attrPatternMatch "foo_i\n" = some ("foo", "i") := by decide
example : attrPatternMatch "foo_i\n\n" = none := by decide
example : attrPatternMatch "a\nb_i" = none := by decide

/-! ## Graph model -/

/-- A graph value id (`_C.Value`). -/
abbrev GValue := Nat

/-- A positional argument of `graph_op`: either an existing graph value
(`_C.Value`) or any other Python value (tensor, number, `None`, ...). -/
inductive RawArg where
  | value (v : GValue)
  | py (v : PyVal)

/-- A node of the graph.  `attrs` records the attribute-setter invocations
`getattr(node, f"{kind}_")(name, value)` in order as
`(setter name, attribute name, value)`; `inputs` holds the node's input
values, `none` modelling a Python `None` input. -/
structure GNode where
  kind : String
  inputs : List (Option GValue)
  attrs : List (String × String × PyVal)
  outputIds : List GValue

/-- The native graph (`_C.Graph`), plus a trace of the node ids (positions in
`nodes`) on which `_C._jit_pass_onnx_node_shape_type_inference` was invoked. -/
structure GraphState where
  nextValue : Nat
  nodes : List GNode
  inferenceCalls : List Nat

/-- The fields of `torch.onnx._globals.GLOBALS` this module reads. -/
structure Globals where
  onnx_shape_inference : Bool
  operator_export_type_is_aten_fallback : Bool
  caffe2_aten_fallback_build : Bool
  export_onnx_opset_version : Nat

/-- `_is_caffe2_aten_fallback`. -/
def is_caffe2_aten_fallback (gl : Globals) : Bool :=
  gl.operator_export_type_is_aten_fallback ∧ gl.caffe2_aten_fallback_build

/-- `_scalar(x)`: the single element of a one-element tensor.  The element's
value is abstracted (tensors carry no data in the model); only its Python type
(float vs int) is kept, which is all `_add_attribute` inspects. -/
def scalarOf (t : TensorV) : PyVal :=
  if t.isFloat then .floatV 0 else .intV 0

/-- The message of the `ValueError` for a key `_ATTR_PATTERN` rejects
(the source concatenates two adjacent string literals, hence the double
space after `names`). -/
def invalidAttrMsg (key : String) : String :=
  "Invalid attribute specifier '" ++ key ++ "' names " ++
    " must be suffixed with type, e.g. 'dim_i' or 'dims_i'"

/-- The message of the `ValueError` raised for a tensor-valued attribute under
the Caffe2 ATen fallback. -/
def tensorAttrMsg : String := "Should not pass tensor attribute"

/-- `isinstance(value, torch.Tensor)`, as an `Option`-view of the tensor. -/
def PyVal.asTensor : PyVal → Option TensorV
  | .tensorV t => some t
  | _ => none

/-- `_add_attribute(node, key, value, aten)`. -/
def add_attribute (node : GNode) (key : String) (value : PyVal) (aten : Bool)
    (gl : Globals) : Except PyErr GNode :=
  match attrMatchList key.data with
  | none => .error (.valueError (invalidAttrMsg key))
  | some (name, kind0) =>
    let kind := if is_onnx_list value then kind0 ++ "s" else kind0
    if aten && is_caffe2_aten_fallback gl then
      match value.asTensor with
      | some t =>
        -- Caffe2 proto does not support tensor attributes: a one-element tensor
        -- is unwrapped by `_scalar` and stored as a float or int.
        if t.numel > 1 then .error (.valueError tensorAttrMsg)
        else if t.numel ≠ 1 then .error (.assertionError "x.numel() == 1")
        else
          .ok { node with attrs := node.attrs ++
            [((if t.isFloat then "f" else "i") ++ "_", String.mk name, scalarOf t)] }
      | none => .ok { node with attrs := node.attrs ++ [(kind ++ "_", String.mk name, value)] }
    else .ok { node with attrs := node.attrs ++ [(kind ++ "_", String.mk name, value)] }

/-- Keyword arguments, as the association list of a Python dict (keys unique). -/
abbrev Kwargs := List (String × PyVal)

/-- Ordering of `sorted(kwargs.items())`: tuples compare by their first
component, and since dict keys are unique the comparison never reaches the
values, so a stable sort by key is an exact model. -/
def keyLe (p q : String × PyVal) : Prop := p.1 ≤ q.1

instance : DecidableRel keyLe := fun p q => inferInstanceAs (Decidable (p.1 ≤ q.1))

instance : IsTotal (String × PyVal) keyLe := ⟨fun a b => le_total a.1 b.1⟩

instance : IsTrans (String × PyVal) keyLe := ⟨fun _ _ _ h h' => le_trans h h'⟩

/-- `sorted(kwargs.items())`. -/
def sortKwargs (l : Kwargs) : Kwargs := List.insertionSort keyLe l

/-- The attribute loop shared by `_new_node` and `block_op`:
`for k, v in <sorted kwargs>: if k == "inplace": continue; _add_attribute(...)`. -/
def applyAttrs (aten : Bool) (gl : Globals) (node : GNode) : Kwargs → Except PyErr GNode
  | [] => .ok node
  | (k, v) :: rest =>
    if k = "inplace" then applyAttrs aten gl node rest
    else
      match add_attribute node k v aten gl with
      | .error e => .error e
      | .ok node2 => applyAttrs aten gl node2 rest

/-- `kwargs.pop("aten", False)`, as the truthiness of the popped value. -/
def popAtenFlag (kwargs : Kwargs) : Bool :=
  pyTruthy ((kwargs.lookup "aten").getD (.boolV false))

/-- The kwargs left after `kwargs.pop("aten", False)`. -/
def popAten (kwargs : Kwargs) : Kwargs := kwargs.filter (fun kv => kv.1 ≠ "aten")

/-- `g.create(f"{namespace}::{op}", args, outputs)`: allocates `outputs` fresh
output values and builds a node that is not yet inserted into the graph. -/
def createNode (st : GraphState) (kind : String) (args : List (Option GValue))
    (outputs : Nat) : GraphState × GNode :=
  ({ st with nextValue := st.nextValue + outputs },
   { kind := kind, inputs := args, attrs := [],
     outputIds := (List.range outputs).map (st.nextValue + ·) })

/-- `_new_node(g, namespace, op, outputs, *args, **kwargs)`. -/
def new_node (st : GraphState) (ns op : String) (outputs : Nat)
    (args : List (Option GValue)) (kwargs : Kwargs) (gl : Globals) :
    Except PyErr (GraphState × GNode) :=
  let aten := popAtenFlag kwargs
  let kwargs2 := popAten kwargs
  let (st1, node0) := createNode st (ns ++ "::" ++ op) args outputs
  match applyAttrs aten gl node0 (sortKwargs kwargs2) with
  | .error e => .error e
  | .ok node => .ok (st1, node)

/-! ## `graph_op` and friends -/

/-- `opname.split("::")` on character lists (Python `str.split` with a
two-character separator, scanning left to right, keeping empty pieces). -/
def splitColons : List Char → List (List Char)
  | [] => [[]]
  | ':' :: ':' :: rest => [] :: splitColons rest
  | c :: rest =>
    match splitColons rest with
    | [] => [[c]]
    | l :: ls => (c :: l) :: ls

example : splitColons "a::b::c".data = ["a".data, "b".data, "c".data] := by decide
example : splitColons "Abs".data = ["Abs".data] := by decide
example : splitColons "a:::b".data = ["a".data, ":b".data] := by decide
example : splitColons "a::".data = ["a".data, "".data] := by decide

/-- `"::" in opname`. -/
def containsColons (s : String) : Bool := (splitColons s.data).length > 1

/-- The message of the `ValueError` the interpreter raises for
`namespace, op = opname.split("::")` when the split has more than two parts. -/
def unpackMsg : String := "too many values to unpack (expected 2)"

/-- The result of `graph_op`: `n.output()` when `outputs == 1`, otherwise
`tuple(n.outputs())`. -/
inductive OpResult where
  | one (v : GValue)
  | many (vs : List GValue)

/-- The tail of `graph_op` once the namespace is known:
`n = g.insertNode(_new_node(g, namespace, op, outputs, *args, **kwargs))`,
the optional shape/type-inference pass, and output selection. -/
def graphOpBuild (st : GraphState) (ns op : String) (args : List (Option GValue))
    (outputs : Nat) (kwargs : Kwargs) (gl : Globals) :
    Except PyErr (GraphState × OpResult) :=
  match new_node st ns op outputs args kwargs gl with
  | .error e => .error e
  | .ok (st1, node) =>
    let nodeId := st1.nodes.length
    let st2 := { st1 with nodes := st1.nodes ++ [node] }
    let st3 :=
      if gl.onnx_shape_inference then
        { st2 with inferenceCalls := st2.inferenceCalls ++ [nodeId] }
      else st2
    if outputs = 1 then .ok (st3, .one (node.outputIds.headD 0))
    else .ok (st3, .many node.outputIds)

/-- The part of `graph_op` after argument conversion: the namespace split
`namespace, op = opname.split("::")` (with no `"::"` the namespace defaults to
`onnx`; three or more pieces make the unpacking raise `ValueError`), followed
by `graphOpBuild`. -/
def graphOpCore (st : GraphState) (opname : String) (args : List (Option GValue))
    (outputs : Nat) (kwargs : Kwargs) (gl : Globals) :
    Except PyErr (GraphState × OpResult) :=
  match splitColons opname.data with
  | [_] => graphOpBuild st "onnx" opname args outputs kwargs gl
  | [ns, op] => graphOpBuild st (String.mk ns) (String.mk op) args outputs kwargs gl
  | _ => .error (.valueError unpackMsg)

/-- `v is not None` filter on kwargs (`graph_op`'s first line). -/
def noneFilter (kwargs : Kwargs) : Kwargs :=
  kwargs.filter (fun kv => !kv.2.isNone)

/-- `graph_op(g, "Constant", value_z=arg)` as invoked by `_const_if_tensor`:
since this recursive call passes no positional arguments, it is exactly the
kwargs filter followed by `graphOpCore`. -/
def graphOpConst (st : GraphState) (w : PyVal) (gl : Globals) :
    Except PyErr (GraphState × OpResult) :=
  graphOpCore st "Constant" [] 1 (noneFilter [("value_z", w)]) gl

/-- `_const_if_tensor(g, arg)`. -/
def const_if_tensor (st : GraphState) (arg : RawArg) (gl : Globals) :
    Except PyErr (GraphState × Option GValue) :=
  match arg with
  | .py .noneV => .ok (st, none)
  | .value v => .ok (st, some v)
  | .py w =>
    match graphOpConst st w gl with
    | .error e => .error e
    | .ok (st1, .one v) => .ok (st1, some v)
    | .ok (st1, .many vs) => .ok (st1, vs.headD 0)

/-- `args = [_const_if_tensor(g, arg) for arg in raw_args]`. -/
def convertArgs (st : GraphState) (gl : Globals) :
    List RawArg → Except PyErr (GraphState × List (Option GValue))
  | [] => .ok (st, [])
  | a :: rest =>
    match const_if_tensor st a gl with
    | .error e => .error e
    | .ok (st1, v) =>
      match convertArgs st1 gl rest with
      | .error e => .error e
      | .ok (st2, vs) => .ok (st2, v :: vs)

/-- `graph_op(g, opname, *raw_args, outputs=outputs, **kwargs)`. -/
def graph_op (st : GraphState) (opname : String) (rawArgs : List RawArg)
    (outputs : Nat) (kwargs : Kwargs) (gl : Globals) :
    Except PyErr (GraphState × OpResult) :=
  let kwargs2 := noneFilter kwargs
  match convertArgs st gl rawArgs with
  | .error e => .error e
  | .ok (st1, args) => graphOpCore st1 opname args outputs kwargs2 gl

/-- `aten_op(g, operator, *args, overload_name="", **kwargs)`. -/
def aten_op (st : GraphState) (operator : String) (rawArgs : List RawArg)
    (overloadName : String) (kwargs : Kwargs) (gl : Globals) :
    Except PyErr (GraphState × OpResult) :=
  graph_op st "aten::ATen" rawArgs 1
    (("operator_s", .strV operator) :: ("overload_name_s", .strV overloadName) :: kwargs) gl

/-- `block_op(b, opname, *args, **kwargs)`.  The native `b.addNode` is
abstracted as creating and appending a node with one output; in the source the
node is appended before its attributes are set, so on an attribute error the
real block keeps the partially-attributed node while the `Except` model
discards the state — the claims here concern only which error is raised and
which attributes are applied, which the model preserves. -/
def block_op (st : GraphState) (opname : String) (args : List GValue)
    (kwargs : Kwargs) (gl : Globals) : Except PyErr (GraphState × OpResult) :=
  let (aten, nsOpname, kwargs2) :=
    if containsColons opname then (false, opname, kwargs)
    else
      let aten := popAtenFlag kwargs
      ((aten, (if aten then "aten" else "onnx") ++ "::" ++ opname, popAten kwargs))
  let (st1, node0) := createNode st nsOpname (args.map some) 1
  match applyAttrs aten gl node0 (sortKwargs kwargs2) with
  | .error e => .error e
  | .ok node =>
    let st2 := { st1 with nodes := st1.nodes ++ [node] }
    match node.outputIds with
    | [v] => .ok (st2, .one v)
    | vs => .ok (st2, .many vs)

/-! ## `graph_constant` -/

/-- Python `dims == 0` for the modelled values (`True == 0` is `False`,
`False == 0` is `True`; containers and `None` never equal `0`; a tensor
comparison would yield a tensor, whose truthiness is out of the module's
control — modelled as `false`, which never introduces a `ValueError`). -/
def pyEq0 : PyVal → Bool
  | .intV n => n = 0
  | .boolV b => !b
  | .floatV z => z = 0
  | _ => false

/-- Is the value a `listV` (unhashable as a set element)? -/
def PyVal.isList : PyVal → Bool
  | .listV _ => true
  | _ => false

/-- A dimension entry as accepted by the native tensor constructors:
ints (and bools, which are ints in Python).  Anything else makes the native
constructor raise a non-`ValueError`. -/
def dimAsInt : PyVal → Option Int
  | .intV n => some n
  | .boolV b => some (if b then 1 else 0)
  | _ => none

/-- The `dims` handling of `graph_constant`:
`if dims is None or dims == 0 or set(dims) == {0}: dims = [1]; isscalar = True`,
followed by the use of `dims` as `torch.XTensor(*dims)`.  Returns
`(isscalar, dims)` or the (non-`ValueError`) exception this raises.
`set(...)` on a non-iterable raises `TypeError`; a set with a `list` element
raises `TypeError` (unhashable); failures inside the native constructor
(non-int or negative dims, unpacking a string or tensor) are abstracted as
labelled `typeError`s — none of them is a `ValueError`. -/
def scalarDims : PyVal → Except PyErr (Bool × List Int)
  | .noneV => .ok (true, [1])
  | d =>
    if pyEq0 d then .ok (true, [1])
    else
      match d with
      | .intV _ => .error (.typeError "int object is not iterable")
      | .boolV _ => .error (.typeError "bool object is not iterable")
      | .floatV _ => .error (.typeError "float object is not iterable")
      | .strV _ => .error (.typeError "native tensor constructor: string dims")
      | .tensorV _ => .error (.typeError "native tensor constructor: tensor dims")
      | .listV ds =>
        if ds.any PyVal.isList then .error (.typeError "unhashable type in set(dims)")
        else if !ds.isEmpty && ds.all pyEq0 then .ok (true, [1])
        else
          match ds.mapM dimAsInt with
          | none => .error (.typeError "native tensor constructor: non-int dims")
          | some ints =>
            if ints.any (· < 0) then
              .error (.typeError "native tensor constructor: negative dims")
            else .ok (false, ints)
      | .noneV => .ok (true, [1])

/-- Whether a lowercased type string names a floating-point tensor type;
`none` when the string is not one of the seven supported names. -/
def tensorTypeIsFloat : String → Option Bool
  | "char" => some false
  | "short" => some false
  | "int" => some false
  | "long" => some false
  | "half" => some true
  | "float" => some true
  | "double" => some true
  | _ => none

/-- The message of the `ValueError` for an unknown `type_` in `graph_constant`. -/
def unknownTypeMsg : String :=
  "Unknown type, type should be one of the following strings: " ++
    "char, short, int, long, half, float, double"

/-- The element count of `torch.XTensor(*dims)`: `XTensor()` (no dims) is
empty, otherwise the product of the dims. -/
def numelOfDims : List Int → Nat
  | [] => 0
  | ds => (ds.foldl (· * ·) 1).toNat

/-- `graph_constant(g, value, dims, type_, *args, **kwargs)`. -/
def graph_constant (st : GraphState) (value : PyVal) (dims : PyVal)
    (type_ : String) (rawArgs : List RawArg) (kwargs : Kwargs) (gl : Globals) :
    Except PyErr (GraphState × OpResult) :=
  if !isNumber value then
    .error (.assertionError "isinstance(value, numbers.Number)")
  else
    match scalarDims dims with
    | .error e => .error e
    | .ok (isscalar, dims2) =>
      match tensorTypeIsFloat type_.toLower with
      | none => .error (.valueError unknownTypeMsg)
      | some isFloat =>
        let tensor : PyVal := .tensorV ⟨numelOfDims dims2, isFloat⟩
        let key := if isscalar then "value_z" else "value_t"
        if (kwargs.lookup key).isSome then
          .error (.typeError "got multiple values for keyword argument")
        else graph_op st "Constant" rawArgs 1 ((key, tensor) :: kwargs) gl

/-! ## The module's public entry points, for the failure-model claim -/

/-- A call to one of the module's entry points: `graph_op` (also reached via
`GraphContext.op` and `_const_if_tensor`), `aten_op` (also `GraphContext.at`),
`block_op`, and `graph_constant`. -/
inductive EntryCall where
  | op (opname : String) (rawArgs : List RawArg) (outputs : Nat) (kwargs : Kwargs)
  | aten (operator : String) (rawArgs : List RawArg) (overloadName : String) (kwargs : Kwargs)
  | block (opname : String) (args : List GValue) (kwargs : Kwargs)
  | constant (value : PyVal) (dims : PyVal) (type_ : String) (rawArgs : List RawArg) (kwargs : Kwargs)

/-- Run an entry-point call against a graph state and globals. -/
def runEntry (c : EntryCall) (st : GraphState) (gl : Globals) :
    Except PyErr (GraphState × OpResult) :=
  match c with
  | .op opname rawArgs outputs kwargs => graph_op st opname rawArgs outputs kwargs gl
  | .aten operator rawArgs overloadName kwargs => aten_op st operator rawArgs overloadName kwargs gl
  | .block opname args kwargs => block_op st opname args kwargs gl
  | .constant value dims type_ rawArgs kwargs => graph_constant st value dims type_ rawArgs kwargs gl

/-! ## Lemmas about the attribute-key pattern -/

theorem mk_data (s : String) : String.mk s.data = s := by cases s; rfl

theorem stripTrailingNl_cons_ne (c : Char) (rest : List Char) (h : c ≠ '\n') :
    stripTrailingNl (c :: rest) = c :: rest := by
  simp [stripTrailingNl, h]

theorem matchRev_single (c : Char) (h : singleCode c = true) (rest : List Char)
    (h2 : rest ≠ []) : matchRev (c :: '_' :: rest) = some (rest.reverse, String.mk [c]) := by
  have hy : ¬(c = 'y' ∧ '_' = 't') := by rintro ⟨-, h'⟩; exact absurd h' (by decide)
  simp [matchRev, hy, h, h2]

theorem matchRev_ty (rest : List Char) (h2 : rest ≠ []) :
    matchRev ('y' :: 't' :: '_' :: rest) = some (rest.reverse, "ty") := by
  simp [matchRev, h2]

theorem attrMatchList_single (name : List Char) (c : Char) (h : singleCode c = true)
    (hc : c ≠ '\n') (h1 : name ≠ []) (h2 : '\n' ∉ name) :
    attrMatchList (name ++ ['_', c]) = some (name, String.mk [c]) := by
  have hrev : (name ++ ['_', c]).reverse = c :: '_' :: name.reverse := by simp
  have hrevne : name.reverse ≠ [] := by simpa using h1
  rw [attrMatchList, hrev, stripTrailingNl_cons_ne _ _ hc]
  have hmem : ¬ '\n' ∈ c :: '_' :: name.reverse := by
    simp only [List.mem_cons, List.mem_reverse]
    push_neg
    exact ⟨fun h' => hc h'.symm, by decide, h2⟩
  rw [if_neg hmem, matchRev_single c h _ hrevne]
  simp

theorem attrMatchList_single_nl (name : List Char) (c : Char) (h : singleCode c = true)
    (h1 : name ≠ []) (h2 : '\n' ∉ name) :
    attrMatchList (name ++ ['_', c, '\n']) = some (name, String.mk [c]) := by
  have hrev : (name ++ ['_', c, '\n']).reverse = '\n' :: c :: '_' :: name.reverse := by simp
  have hrevne : name.reverse ≠ [] := by simpa using h1
  have hc : c ≠ '\n' := by
    intro h'
    subst h'
    exact absurd h (by decide)
  rw [attrMatchList, hrev]
  rw [show stripTrailingNl ('\n' :: c :: '_' :: name.reverse) = c :: '_' :: name.reverse from by
    simp [stripTrailingNl]]
  have hmem : ¬ '\n' ∈ c :: '_' :: name.reverse := by
    simp only [List.mem_cons, List.mem_reverse]
    push_neg
    exact ⟨fun h' => hc h'.symm, by decide, h2⟩
  rw [if_neg hmem, matchRev_single c h _ hrevne]
  simp

theorem attrMatchList_ty (name : List Char) (h1 : name ≠ []) (h2 : '\n' ∉ name) :
    attrMatchList (name ++ ['_', 't', 'y']) = some (name, "ty") := by
  have hrev : (name ++ ['_', 't', 'y']).reverse = 'y' :: 't' :: '_' :: name.reverse := by simp
  have hrevne : name.reverse ≠ [] := by simpa using h1
  rw [attrMatchList, hrev, stripTrailingNl_cons_ne _ _ (by decide)]
  have hmem : ¬ '\n' ∈ 'y' :: 't' :: '_' :: name.reverse := by
    simp only [List.mem_cons, List.mem_reverse]
    push_neg
    exact ⟨by decide, by decide, by decide, h2⟩
  rw [if_neg hmem, matchRev_ty _ hrevne]
  simp

theorem attrMatchList_ty_nl (name : List Char) (h1 : name ≠ []) (h2 : '\n' ∉ name) :
    attrMatchList (name ++ ['_', 't', 'y', '\n']) = some (name, "ty") := by
  have hrev : (name ++ ['_', 't', 'y', '\n']).reverse = '\n' :: 'y' :: 't' :: '_' :: name.reverse := by
    simp
  have hrevne : name.reverse ≠ [] := by simpa using h1
  rw [attrMatchList, hrev]
  rw [show stripTrailingNl ('\n' :: 'y' :: 't' :: '_' :: name.reverse) =
      'y' :: 't' :: '_' :: name.reverse from by simp [stripTrailingNl]]
  have hmem : ¬ '\n' ∈ 'y' :: 't' :: '_' :: name.reverse := by
    simp only [List.mem_cons, List.mem_reverse]
    push_neg
    exact ⟨by decide, by decide, by decide, h2⟩
  rw [if_neg hmem, matchRev_ty _ hrevne]
  simp

/-! ## `_add_attribute` dispatch lemmas -/

theorem add_attribute_matched (node : GNode) (key : String) (v : PyVal) (gl : Globals)
    (nameL : List Char) (kindS : String)
    (hm : attrMatchList key.data = some (nameL, kindS)) (h3 : is_onnx_list v = false) :
    add_attribute node key v false gl =
      .ok { node with attrs := node.attrs ++ [(kindS ++ "_", String.mk nameL, v)] } := by
  simp [add_attribute, hm, h3]

theorem add_attribute_matched_list (node : GNode) (key : String) (gl : Globals)
    (nameL : List Char) (kindS : String) (vs : List PyVal)
    (hm : attrMatchList key.data = some (nameL, kindS)) :
    add_attribute node key (.listV vs) false gl =
      .ok { node with attrs := node.attrs ++ [(kindS ++ "s" ++ "_", String.mk nameL, .listV vs)] } := by
  simp [add_attribute, hm, is_onnx_list]

/-! ## Shared concrete sample values for witnesses -/

def sampleNode : GNode := { kind := "onnx::X", inputs := [], attrs := [], outputIds := [0] }

def sampleGlobals : Globals :=
  { onnx_shape_inference := false, operator_export_type_is_aten_fallback := false,
    caffe2_aten_fallback_build := false, export_onnx_opset_version := 17 }

def sampleState : GraphState := { nextValue := 0, nodes := [], inferenceCalls := [] }

/-! ## Claims -/

/-- C1: for every attribute key with a recognized type suffix, `_add_attribute`
dispatches the value to the native setter named by the suffix's type code:
`name_i` to the integer setter `i_` under attribute name `name`, `name_f`
to the float setter `f_`, `name_s` to the string setter `s_`, and
`name_t` / `name_z` to the tensor setters `t_` / `z_` (scalar value,
no Caffe2-ATen rewriting). -/
theorem c1_suffix_routes_to_typed_setter (name : String) (v : PyVal) (node : GNode)
    (gl : Globals) (h1 : name.data ≠ []) (h2 : '\n' ∉ name.data)
    (h3 : is_onnx_list v = false) :
    add_attribute node (name ++ "_i") v false gl =
      .ok { node with attrs := node.attrs ++ [("i_", name, v)] } ∧
    add_attribute node (name ++ "_f") v false gl =
      .ok { node with attrs := node.attrs ++ [("f_", name, v)] } ∧
    add_attribute node (name ++ "_s") v false gl =
      .ok { node with attrs := node.attrs ++ [("s_", name, v)] } ∧
    add_attribute node (name ++ "_t") v false gl =
      .ok { node with attrs := node.attrs ++ [("t_", name, v)] } ∧
    add_attribute node (name ++ "_z") v false gl =
      .ok { node with attrs := node.attrs ++ [("z_", name, v)] } := by
  refine ⟨?_, ?_, ?_, ?_, ?_⟩
  · exact add_attribute_matched node _ v gl name.data "i"
      (by rw [String.data_append]; exact attrMatchList_single name.data 'i' (by decide) (by decide) h1 h2) h3
  · exact add_attribute_matched node _ v gl name.data "f"
      (by rw [String.data_append]; exact attrMatchList_single name.data 'f' (by decide) (by decide) h1 h2) h3
  · exact add_attribute_matched node _ v gl name.data "s"
      (by rw [String.data_append]; exact attrMatchList_single name.data 's' (by decide) (by decide) h1 h2) h3
  · exact add_attribute_matched node _ v gl name.data "t"
      (by rw [String.data_append]; exact attrMatchList_single name.data 't' (by decide) (by decide) h1 h2) h3
  · exact add_attribute_matched node _ v gl name.data "z"
      (by rw [String.data_append]; exact attrMatchList_single name.data 'z' (by decide) (by decide) h1 h2) h3

/-- Witness for C1 at `name = "foo"`, `v = 3`. -/
theorem c1_suffix_routes_to_typed_setter_witness :
    add_attribute sampleNode ("foo" ++ "_i") (.intV 3) false sampleGlobals =
      .ok { sampleNode with attrs := sampleNode.attrs ++ [("i_", "foo", .intV 3)] } ∧
    add_attribute sampleNode ("foo" ++ "_f") (.intV 3) false sampleGlobals =
      .ok { sampleNode with attrs := sampleNode.attrs ++ [("f_", "foo", .intV 3)] } ∧
    add_attribute sampleNode ("foo" ++ "_s") (.intV 3) false sampleGlobals =
      .ok { sampleNode with attrs := sampleNode.attrs ++ [("s_", "foo", .intV 3)] } ∧
    add_attribute sampleNode ("foo" ++ "_t") (.intV 3) false sampleGlobals =
      .ok { sampleNode with attrs := sampleNode.attrs ++ [("t_", "foo", .intV 3)] } ∧
    add_attribute sampleNode ("foo" ++ "_z") (.intV 3) false sampleGlobals =
      .ok { sampleNode with attrs := sampleNode.attrs ++ [("z_", "foo", .intV 3)] } :=
  c1_suffix_routes_to_typed_setter "foo" (.intV 3) sampleNode sampleGlobals
    (by decide) (by decide) (by decide)

/-- C2: an attribute key rejected by `_ATTR_PATTERN` makes `_add_attribute`
raise `ValueError` before any setter is invoked — the returned error carries
the source's message and no setter invocation is recorded (the model records
setter invocations only on the node a successful return carries). -/
theorem c2_malformed_key_raises_valueerror (node : GNode) (key : String) (v : PyVal)
    (aten : Bool) (gl : Globals) (h : attrMatchList key.data = none) :
    add_attribute node key v aten gl = .error (.valueError (invalidAttrMsg key)) := by
  simp [add_attribute, h]

/-- Witness for C2 at `key = "bogus"`. -/
theorem c2_malformed_key_raises_valueerror_witness :
    add_attribute sampleNode "bogus" (.intV 0) false sampleGlobals =
      .error (.valueError (invalidAttrMsg "bogus")) :=
  c2_malformed_key_raises_valueerror sampleNode "bogus" (.intV 0) false sampleGlobals
    (by decide)

/-- C3: a list-valued attribute widens the parsed type code to its plural form
(`kind + "s"`) before dispatch, while any non-list value (scalars, strings,
tensors) keeps the singular code (outside the Caffe2-ATen rewriting). -/
theorem c3_list_value_widens_kind (node : GNode) (key : String) (nameL : List Char)
    (kindS : String) (gl : Globals) (vs : List PyVal) (v : PyVal)
    (hm : attrMatchList key.data = some (nameL, kindS)) :
    add_attribute node key (.listV vs) false gl =
      .ok { node with attrs := node.attrs ++
        [(kindS ++ "s" ++ "_", String.mk nameL, .listV vs)] } ∧
    (is_onnx_list v = false →
      add_attribute node key v false gl =
        .ok { node with attrs := node.attrs ++ [(kindS ++ "_", String.mk nameL, v)] }) :=
  ⟨add_attribute_matched_list node key gl nameL kindS vs hm,
   fun h3 => add_attribute_matched node key v gl nameL kindS hm h3⟩

/-- Witness for C3 at `key = "dims_i"`: `dims_i=[2]` is stored through `is_`,
`dims_i=2` through `i_`. -/
theorem c3_list_value_widens_kind_witness :
    add_attribute sampleNode "dims_i" (.listV [.intV 2]) false sampleGlobals =
      .ok { sampleNode with attrs := sampleNode.attrs ++
        [("i" ++ "s" ++ "_", String.mk "dims".data, .listV [.intV 2])] } ∧
    (is_onnx_list (.intV 2) = false →
      add_attribute sampleNode "dims_i" (.intV 2) false sampleGlobals =
        .ok { sampleNode with attrs := sampleNode.attrs ++
          [("i" ++ "_", String.mk "dims".data, .intV 2)] }) :=
  c3_list_value_widens_kind sampleNode "dims_i" "dims".data "i" sampleGlobals
    [.intV 2] (.intV 2) (by decide)

/-- C5: `None`-valued keyword attributes are silently dropped before node
construction: running `graph_op` on `kwargs` is identical to running it on
`kwargs` with the `None`-valued entries removed, so no setter sees them, they
raise nothing, and the node is built from exactly the remaining attributes. -/
theorem c5_none_kwargs_silently_dropped (st : GraphState) (opname : String)
    (rawArgs : List RawArg) (outputs : Nat) (kwargs : Kwargs) (gl : Globals) :
    graph_op st opname rawArgs outputs kwargs gl =
      graph_op st opname rawArgs outputs (noneFilter kwargs) gl := by
  simp [graph_op, noneFilter, List.filter_filter]

/-- C10: a positional argument equal to `None` is handed back unchanged by
`_const_if_tensor` — the graph gains no Constant node — and the argument
conversion of `graph_op` threads it through as a `None` input. -/
theorem c10_none_positional_passthrough (st : GraphState) (gl : Globals)
    (rest : List RawArg) :
    const_if_tensor st (.py .noneV) gl = .ok (st, none) ∧
    convertArgs st gl (.py .noneV :: rest) =
      (match convertArgs st gl rest with
       | .error e => .error e
       | .ok (st2, vs) => .ok (st2, none :: vs)) :=
  ⟨rfl, rfl⟩

/-! ## Evaluation of the Constant-wrapping call -/

/-- The `onnx::Constant` node `_const_if_tensor` produces for a non-`None`,
non-graph-value argument `w`: no inputs, the value stored under attribute
`value` through the `z_` setter (`zs_` for list-likes), one fresh output. -/
def constNodeFor (st : GraphState) (w : PyVal) : GNode :=
  { kind := "onnx::Constant"
    inputs := []
    attrs := [((if is_onnx_list w then "zs_" else "z_"), "value", w)]
    outputIds := [st.nextValue] }

/-- The graph state after the `Constant`-wrapping call on `w`. -/
def constWrapState (st : GraphState) (w : PyVal) (gl : Globals) : GraphState :=
  { nextValue := st.nextValue + 1
    nodes := st.nodes ++ [constNodeFor st w]
    inferenceCalls := st.inferenceCalls ++
      (if gl.onnx_shape_inference then [st.nodes.length] else []) }

theorem graphOpConst_eval (st : GraphState) (w : PyVal) (gl : Globals)
    (hw : w.isNone = false) :
    graphOpConst st w gl = .ok (constWrapState st w gl, .one st.nextValue) := by
  cases w <;> cases hg : gl.onnx_shape_inference <;>
    simp_all [graphOpConst, graphOpCore, graphOpBuild, new_node, popAtenFlag, popAten, createNode,
      applyAttrs, sortKwargs, noneFilter, add_attribute, pyTruthy, PyVal.isNone,
      is_onnx_list, List.range_succ, constWrapState, constNodeFor, List.lookup,
      show splitColons "Constant".data = ["Constant".data] from by decide,
      show attrMatchList "value_z".data = some ("value".data, "z") from by decide]

theorem const_if_tensor_py (st : GraphState) (w : PyVal) (gl : Globals)
    (hw : w.isNone = false) :
    const_if_tensor st (.py w) gl =
      (match graphOpConst st w gl with
       | .error e => .error e
       | .ok (st1, .one v) => .ok (st1, some v)
       | .ok (st1, .many vs) => .ok (st1, vs.headD 0)) := by
  cases w <;> simp_all [const_if_tensor, PyVal.isNone]

/-- C4 (amended): every **non-`None`** positional argument that is not already
a graph value is wrapped by a `Constant`-producing op call — a fresh
`onnx::Constant` node holding the value as its `value` attribute is inserted
and its output becomes the input — while graph values are attached unchanged
(`None` arguments pass through unwrapped, see the counterexample). -/
theorem c4_nonnone_args_wrapped_into_constant (st : GraphState) (gl : Globals)
    (v : GValue) (w : PyVal) (hw : w.isNone = false) :
    const_if_tensor st (.value v) gl = .ok (st, some v) ∧
    const_if_tensor st (.py w) gl =
      .ok (constWrapState st w gl, some st.nextValue) := by
  refine ⟨rfl, ?_⟩
  rw [const_if_tensor_py st w gl hw, graphOpConst_eval st w gl hw]

/-- Witness for C4 at a one-element int tensor argument. -/
theorem c4_nonnone_args_wrapped_into_constant_witness :
    const_if_tensor sampleState (.value 5) sampleGlobals = .ok (sampleState, some 5) ∧
    const_if_tensor sampleState (.py (.tensorV ⟨1, false⟩)) sampleGlobals =
      .ok (constWrapState sampleState (.tensorV ⟨1, false⟩) sampleGlobals,
           some sampleState.nextValue) :=
  c4_nonnone_args_wrapped_into_constant sampleState sampleGlobals 5
    (.tensorV ⟨1, false⟩) rfl

/-- Counterexample to C4 as stated: a `None` positional argument is not a
graph value, yet `graph_op` attaches it as a raw `None` input — the resulting
graph holds exactly one node and no `Constant` node was produced for it. -/
theorem c4_counterexample_none_arg_not_wrapped :
    graph_op sampleState "Foo" [.py .noneV] 1 [] sampleGlobals =
      .ok ({ nextValue := 1
             nodes := [{ kind := "onnx::Foo", inputs := [none], attrs := [],
                         outputIds := [0] }]
             inferenceCalls := [] }, .one 0) ∧
    (∀ n ∈ [GNode.mk "onnx::Foo" [none] [] [0]], n.kind ≠ "onnx::Constant") :=
  ⟨rfl, by decide⟩

/-! ## State tracking for the shape-inference claim -/

theorem new_node_state (st : GraphState) (ns op : String) (outputs : Nat)
    (args : List (Option GValue)) (kwargs : Kwargs) (gl : Globals)
    (st1 : GraphState) (node : GNode)
    (h : new_node st ns op outputs args kwargs gl = .ok (st1, node)) :
    st1 = { st with nextValue := st.nextValue + outputs } := by
  simp only [new_node, createNode] at h
  split at h
  · simp at h
  · injection h with h'
    exact (congrArg Prod.fst h').symm

theorem graphOpBuild_ok_state (st : GraphState) (ns op : String)
    (args : List (Option GValue)) (outputs : Nat) (kwargs : Kwargs) (gl : Globals)
    (st' : GraphState) (r : OpResult)
    (h : graphOpBuild st ns op args outputs kwargs gl = .ok (st', r)) :
    ∃ node, st'.nodes = st.nodes ++ [node] ∧
      st'.inferenceCalls = st.inferenceCalls ++
        (if gl.onnx_shape_inference then [st.nodes.length] else []) := by
  simp only [graphOpBuild] at h
  split at h
  · simp at h
  · rename_i st1 node heq2
    have hst1 := new_node_state st _ _ outputs args kwargs gl st1 node heq2
    refine ⟨node, ?_⟩
    have hnodes1 : st1.nodes = st.nodes := by rw [hst1]
    have hinf1 : st1.inferenceCalls = st.inferenceCalls := by rw [hst1]
    cases hg : gl.onnx_shape_inference <;>
      split at h <;>
        (injection h with h'; have h2 := congrArg Prod.fst h'; simp only at h2;
         subst h2; simp [hg, hnodes1, hinf1])

theorem graphOpCore_ok_state (st : GraphState) (opname : String)
    (args : List (Option GValue)) (outputs : Nat) (kwargs : Kwargs) (gl : Globals)
    (st' : GraphState) (r : OpResult)
    (h : graphOpCore st opname args outputs kwargs gl = .ok (st', r)) :
    ∃ node, st'.nodes = st.nodes ++ [node] ∧
      st'.inferenceCalls = st.inferenceCalls ++
        (if gl.onnx_shape_inference then [st.nodes.length] else []) := by
  simp only [graphOpCore] at h
  split at h
  · exact graphOpBuild_ok_state st _ _ args outputs kwargs gl st' r h
  · exact graphOpBuild_ok_state st _ _ args outputs kwargs gl st' r h
  · simp at h

theorem const_if_tensor_inference_off (st : GraphState) (arg : RawArg) (gl : Globals)
    (st1 : GraphState) (v : Option GValue) (hg : gl.onnx_shape_inference = false)
    (h : const_if_tensor st arg gl = .ok (st1, v)) :
    st1.inferenceCalls = st.inferenceCalls := by
  cases arg with
  | value w =>
    injection h with h'
    injection h' with ha hb
    rw [← ha]
  | py w =>
    cases hw : w.isNone with
    | true =>
      have hww : w = .noneV := by cases w <;> simp_all [PyVal.isNone]
      subst hww
      injection h with h'
      injection h' with ha hb
      rw [← ha]
    | false =>
      rw [const_if_tensor_py st w gl hw, graphOpConst_eval st w gl hw] at h
      injection h with h'
      injection h' with ha hb
      rw [← ha]
      simp [constWrapState, hg]

theorem convertArgs_inference_off (gl : Globals) (hg : gl.onnx_shape_inference = false) :
    ∀ (rawArgs : List RawArg) (st st2 : GraphState) (vs : List (Option GValue)),
    convertArgs st gl rawArgs = .ok (st2, vs) → st2.inferenceCalls = st.inferenceCalls := by
  intro rawArgs
  induction rawArgs with
  | nil =>
    intro st st2 vs h
    injection h with h'
    injection h' with ha hb
    rw [← ha]
  | cons a rest ih =>
    intro st st2 vs h
    simp only [convertArgs] at h
    split at h
    · simp at h
    · rename_i st1 v heq
      split at h
      · simp at h
      · rename_i st3 vs3 heq2
        injection h with h'
        have h2 := congrArg Prod.fst h'
        simp only at h2
        subst h2
        rw [ih st1 st3 vs3 heq2, const_if_tensor_inference_off st a gl st1 v hg heq]

/-- C6: the external shape-and-type inference pass runs on the newly inserted
node iff `GLOBALS.onnx_shape_inference` is set: on success, when the flag is
true the last inference invocation is on the node `graph_op` just inserted
(the final node of the graph), and when it is false the set of inference
invocations is exactly what it was before the call. -/
theorem c6_shape_inference_iff_flag (st : GraphState) (opname : String)
    (rawArgs : List RawArg) (outputs : Nat) (kwargs : Kwargs) (gl : Globals)
    (st' : GraphState) (r : OpResult)
    (h : graph_op st opname rawArgs outputs kwargs gl = .ok (st', r)) :
    (gl.onnx_shape_inference = true →
      st'.inferenceCalls.getLast? = some (st'.nodes.length - 1)) ∧
    (gl.onnx_shape_inference = false → st'.inferenceCalls = st.inferenceCalls) := by
  simp only [graph_op] at h
  split at h
  · simp at h
  · rename_i st1 args heq
    obtain ⟨node, hnodes, hinf⟩ := graphOpCore_ok_state st1 opname args outputs
      (noneFilter kwargs) gl st' r h
    constructor
    · intro hg
      rw [hinf, hnodes, hg]
      simp
    · intro hg
      rw [hinf, hg]
      simp only [if_neg (by simp : ¬ (false = true)), List.append_nil]
      exact convertArgs_inference_off gl hg rawArgs st st1 args heq

/-- Globals with shape inference enabled, for witnesses. -/
def sampleGlobalsInfer : Globals := { sampleGlobals with onnx_shape_inference := true }

/-- Witness for C6 at a concrete call with the flag enabled. -/
theorem c6_shape_inference_iff_flag_witness :
    (sampleGlobalsInfer.onnx_shape_inference = true →
      (GraphState.mk 1 [GNode.mk "onnx::Foo" [] [] [0]] [0]).inferenceCalls.getLast? =
        some ((GraphState.mk 1 [GNode.mk "onnx::Foo" [] [] [0]] [0]).nodes.length - 1)) ∧
    (sampleGlobalsInfer.onnx_shape_inference = false →
      (GraphState.mk 1 [GNode.mk "onnx::Foo" [] [] [0]] [0]).inferenceCalls =
        sampleState.inferenceCalls) :=
  c6_shape_inference_iff_flag sampleState "Foo" [] 1 [] sampleGlobalsInfer
    (GraphState.mk 1 [GNode.mk "onnx::Foo" [] [] [0]] [0]) (.one 0) rfl

/-! ## The `inplace` skip and the sorted attribute order -/

theorem applyAttrs_orderedInsert_inplace (aten : Bool) (gl : Globals) (v : PyVal) :
    ∀ (L : Kwargs) (node : GNode),
      applyAttrs aten gl node (List.orderedInsert keyLe ("inplace", v) L) =
        applyAttrs aten gl node L := by
  intro L
  induction L with
  | nil => intro node; simp [applyAttrs]
  | cons q L ih =>
    intro node
    obtain ⟨qk, qv⟩ := q
    by_cases hle : keyLe ("inplace", v) (qk, qv)
    · rw [List.orderedInsert, if_pos hle]
      simp [applyAttrs]
    · rw [List.orderedInsert, if_neg hle]
      by_cases hq : qk = "inplace"
      · simp only [applyAttrs, if_pos hq]
        exact ih node
      · simp only [applyAttrs, if_neg hq]
        cases hadd : add_attribute node qk qv aten gl with
        | error e => rfl
        | ok node2 => exact ih node2

theorem popAtenFlag_inplace_cons (v : PyVal) (kwargs : Kwargs) :
    popAtenFlag (("inplace", v) :: kwargs) = popAtenFlag kwargs := by
  simp [popAtenFlag, List.lookup]

theorem popAten_inplace_cons (v : PyVal) (kwargs : Kwargs) :
    popAten (("inplace", v) :: kwargs) = ("inplace", v) :: popAten kwargs := by
  simp [popAten]

/-- C9: in the attribute loops of `_new_node` and `block_op`, a keyword
attribute named exactly `inplace` is silently skipped — adding it to the
kwargs changes nothing, in particular it is never stored and never raises —
and the attributes are applied in sorted key order (the sorted kwargs list the
loop iterates over is `Sorted` under the key ordering). -/
theorem c9_inplace_skipped_and_attrs_sorted :
    (∀ (st : GraphState) (ns op : String) (outputs : Nat)
       (args : List (Option GValue)) (kwargs : Kwargs) (gl : Globals) (v : PyVal),
       new_node st ns op outputs args (("inplace", v) :: kwargs) gl =
         new_node st ns op outputs args kwargs gl) ∧
    (∀ (st : GraphState) (opname : String) (args : List GValue) (kwargs : Kwargs)
       (gl : Globals) (v : PyVal),
       block_op st opname args (("inplace", v) :: kwargs) gl =
         block_op st opname args kwargs gl) ∧
    (∀ l : Kwargs, (sortKwargs l).Sorted keyLe) := by
  refine ⟨?_, ?_, fun l => List.sorted_insertionSort keyLe l⟩
  · intro st ns op outputs args kwargs gl v
    simp only [new_node, popAtenFlag_inplace_cons, popAten_inplace_cons]
    rw [show sortKwargs (("inplace", v) :: popAten kwargs) =
      List.orderedInsert keyLe ("inplace", v) (sortKwargs (popAten kwargs)) from rfl]
    rw [applyAttrs_orderedInsert_inplace]
  · intro st opname args kwargs gl v
    by_cases hcc : containsColons opname
    · simp only [block_op, hcc, if_pos]
      rw [show sortKwargs (("inplace", v) :: kwargs) =
        List.orderedInsert keyLe ("inplace", v) (sortKwargs kwargs) from rfl]
      rw [applyAttrs_orderedInsert_inplace]
    · simp only [block_op, hcc, Bool.false_eq_true, if_false, popAtenFlag_inplace_cons,
        popAten_inplace_cons]
      rw [show sortKwargs (("inplace", v) :: popAten kwargs) =
        List.orderedInsert keyLe ("inplace", v) (sortKwargs (popAten kwargs)) from rfl]
      rw [applyAttrs_orderedInsert_inplace]

/-! ## Exact characterization of the accepted attribute keys -/

/-- The seven recognized type codes, as character lists. -/
def typeCodes : List (List Char) := [['i'], ['f'], ['s'], ['t'], ['g'], ['z'], ['t', 'y']]

/-- The key shape asserted by the claim: a non-empty name, an underscore, and a
recognized type code — nothing else. -/
def StrictKeyForm (cs : List Char) : Prop :=
  ∃ name k, k ∈ typeCodes ∧ name ≠ [] ∧ cs = name ++ '_' :: k

/-- The key shape the pattern actually accepts: additionally one optional
trailing newline (Python `$` matches before a final newline), and the name must
be newline-free (`.` does not match newlines). -/
def AmendedKeyForm (cs : List Char) : Prop :=
  ∃ name k, k ∈ typeCodes ∧ name ≠ [] ∧ ¬ '\n' ∈ name ∧
    (cs = name ++ '_' :: k ∨ cs = name ++ '_' :: k ++ ['\n'])

theorem stripTrailingNl_cases (rcs : List Char) :
    rcs = stripTrailingNl rcs ∨ rcs = '\n' :: stripTrailingNl rcs := by
  match rcs with
  | [] => exact .inl rfl
  | c :: rest =>
    by_cases hc : c = '\n'
    · subst hc
      right
      simp [stripTrailingNl]
    · left
      simp [stripTrailingNl, hc]

theorem singleCode_mem_typeCodes {c : Char} (h : singleCode c = true) :
    [c] ∈ typeCodes := by
  simp only [singleCode, decide_eq_true_eq, Bool.or_eq_true] at h
  rcases h with rfl | rfl | rfl | rfl | rfl | rfl <;> simp [typeCodes]

theorem matchRev_some_inv {l : List Char} {n : List Char} {k : String}
    (h : matchRev l = some (n, k)) :
    ∃ rest, rest ≠ [] ∧ n = rest.reverse ∧
      (l = 'y' :: 't' :: '_' :: rest ∨
       ∃ c, singleCode c = true ∧ l = c :: '_' :: rest) := by
  match l with
  | [] => simp [matchRev] at h
  | [c] => simp [matchRev] at h
  | c1 :: c2 :: rest2 =>
    simp only [matchRev] at h
    by_cases h12 : c1 = 'y' ∧ c2 = 't'
    · obtain ⟨rfl, rfl⟩ := h12
      rw [if_pos ⟨rfl, rfl⟩] at h
      cases rest2 with
      | nil => simp at h
      | cons c3 rest =>
        change (if c3 = '_' ∧ rest ≠ [] then some (rest.reverse, "ty") else none) =
          some (n, k) at h
        by_cases hc : c3 = '_' ∧ rest ≠ []
        · rw [if_pos hc] at h
          obtain ⟨rfl, hr⟩ := hc
          injection h with h'
          exact ⟨rest, hr, (congrArg Prod.fst h').symm, .inl rfl⟩
        · rw [if_neg hc] at h
          simp at h
    · rw [if_neg h12] at h
      by_cases h2 : c2 = '_' ∧ singleCode c1 = true
      · obtain ⟨rfl, hsc⟩ := h2
        rw [if_pos ⟨rfl, hsc⟩] at h
        by_cases hr : rest2 = []
        · rw [if_pos hr] at h
          simp at h
        · rw [if_neg hr] at h
          injection h with h'
          exact ⟨rest2, hr, (congrArg Prod.fst h').symm, .inr ⟨c1, hsc, rfl⟩⟩
      · rw [if_neg h2] at h
        simp at h

/-- C8 (amended): the pattern accepts exactly the keys of the form `name_k` —
`name` non-empty and newline-free, `k` one of the seven codes `i`, `f`, `s`,
`t`, `g`, `z`, `ty` — **optionally followed by one trailing newline** (Python's
`$` also matches just before a final newline); and the undocumented suffixes
`_g`, `_z`, `_ty` are dispatched to the correspondingly named setters `g_`,
`z_`, `ty_` rather than raising. -/
theorem c8_pattern_accepts_exactly_name_code_keys :
    (∀ cs : List Char, (attrMatchList cs).isSome = true ↔ AmendedKeyForm cs) ∧
    (∀ (node : GNode) (name : String) (v : PyVal) (gl : Globals),
      name.data ≠ [] → '\n' ∉ name.data → is_onnx_list v = false →
      add_attribute node (name ++ "_g") v false gl =
        .ok { node with attrs := node.attrs ++ [("g_", name, v)] } ∧
      add_attribute node (name ++ "_z") v false gl =
        .ok { node with attrs := node.attrs ++ [("z_", name, v)] } ∧
      add_attribute node (name ++ "_ty") v false gl =
        .ok { node with attrs := node.attrs ++ [("ty_", name, v)] }) := by
  constructor
  · intro cs
    constructor
    · intro h
      unfold attrMatchList at h
      by_cases hnl : '\n' ∈ stripTrailingNl cs.reverse
      · rw [if_pos hnl] at h
        simp at h
      · rw [if_neg hnl] at h
        obtain ⟨⟨n, k⟩, hsome⟩ := Option.isSome_iff_exists.mp h
        obtain ⟨rest, hr, -, hcase⟩ := matchRev_some_inv hsome
        have hrevrest : rest.reverse ≠ [] := by simpa using hr
        rcases stripTrailingNl_cases cs.reverse with hA | hB
        · have hx : cs = (stripTrailingNl cs.reverse).reverse := by
            rw [← hA, List.reverse_reverse]
          rcases hcase with hl | ⟨c, hsc, hl⟩
          · rw [hl] at hx hnl
            simp only [List.mem_cons, not_or] at hnl
            refine ⟨rest.reverse, ['t', 'y'], by simp [typeCodes], hrevrest, ?_, .inl ?_⟩
            · simpa using hnl.2.2.2
            · simpa using hx
          · rw [hl] at hx hnl
            simp only [List.mem_cons, not_or] at hnl
            refine ⟨rest.reverse, [c], singleCode_mem_typeCodes hsc, hrevrest, ?_, .inl ?_⟩
            · simpa using hnl.2.2
            · simpa using hx
        · have hx : cs = ('\n' :: stripTrailingNl cs.reverse).reverse := by
            rw [← hB, List.reverse_reverse]
          rcases hcase with hl | ⟨c, hsc, hl⟩
          · rw [hl] at hx hnl
            simp only [List.mem_cons, not_or] at hnl
            refine ⟨rest.reverse, ['t', 'y'], by simp [typeCodes], hrevrest, ?_, .inr ?_⟩
            · simpa using hnl.2.2.2
            · simp only [List.reverse_cons] at hx
              simpa using hx
          · rw [hl] at hx hnl
            simp only [List.mem_cons, not_or] at hnl
            refine ⟨rest.reverse, [c], singleCode_mem_typeCodes hsc, hrevrest, ?_, .inr ?_⟩
            · simpa using hnl.2.2
            · simp only [List.reverse_cons] at hx
              simpa using hx
    · rintro ⟨name, k, hk, h1, h2, hcs | hcs⟩ <;> subst hcs <;>
        simp only [typeCodes, List.mem_cons, List.not_mem_nil, or_false] at hk <;>
        rcases hk with rfl | rfl | rfl | rfl | rfl | rfl | rfl
      · simp [attrMatchList_single name 'i' (by decide) (by decide) h1 h2]
      · simp [attrMatchList_single name 'f' (by decide) (by decide) h1 h2]
      · simp [attrMatchList_single name 's' (by decide) (by decide) h1 h2]
      · simp [attrMatchList_single name 't' (by decide) (by decide) h1 h2]
      · simp [attrMatchList_single name 'g' (by decide) (by decide) h1 h2]
      · simp [attrMatchList_single name 'z' (by decide) (by decide) h1 h2]
      · simp [attrMatchList_ty name h1 h2]
      · simp only [List.append_assoc, List.cons_append, List.nil_append]
        simp [attrMatchList_single_nl name 'i' (by decide) h1 h2]
      · simp only [List.append_assoc, List.cons_append, List.nil_append]
        simp [attrMatchList_single_nl name 'f' (by decide) h1 h2]
      · simp only [List.append_assoc, List.cons_append, List.nil_append]
        simp [attrMatchList_single_nl name 's' (by decide) h1 h2]
      · simp only [List.append_assoc, List.cons_append, List.nil_append]
        simp [attrMatchList_single_nl name 't' (by decide) h1 h2]
      · simp only [List.append_assoc, List.cons_append, List.nil_append]
        simp [attrMatchList_single_nl name 'g' (by decide) h1 h2]
      · simp only [List.append_assoc, List.cons_append, List.nil_append]
        simp [attrMatchList_single_nl name 'z' (by decide) h1 h2]
      · simp only [List.append_assoc, List.cons_append, List.nil_append]
        simp [attrMatchList_ty_nl name h1 h2]
  · intro node name v gl h1 h2 h3
    refine ⟨?_, ?_, ?_⟩
    · exact add_attribute_matched node _ v gl name.data "g"
        (by rw [String.data_append]
            exact attrMatchList_single name.data 'g' (by decide) (by decide) h1 h2) h3
    · exact add_attribute_matched node _ v gl name.data "z"
        (by rw [String.data_append]
            exact attrMatchList_single name.data 'z' (by decide) (by decide) h1 h2) h3
    · exact add_attribute_matched node _ v gl name.data "ty"
        (by rw [String.data_append]
            exact attrMatchList_ty name.data h1 h2) h3

/-- Counterexample to C8 as stated: the key `"foo_i\n"` (with a trailing
newline) is accepted by the pattern although it is not of the form
`name_k` for any type code `k` — Python's `$` also matches just before a
trailing newline. -/
theorem c8_counterexample_trailing_newline_key :
    (attrMatchList "foo_i\n".data).isSome = true ∧ ¬ StrictKeyForm "foo_i\n".data := by
  constructor
  · decide
  · rintro ⟨name, k, hk, h1, heq⟩
    have heqr := congrArg List.reverse heq
    rw [show "foo_i\n".data.reverse = ['\n', 'i', '_', 'o', 'o', 'f'] from by decide] at heqr
    simp only [typeCodes, List.mem_cons, List.not_mem_nil, or_false] at hk
    rcases hk with rfl | rfl | rfl | rfl | rfl | rfl | rfl <;>
      simp [List.reverse_append, List.reverse_cons] at heqr

/-- Witness for C8: the undocumented `_g` suffix on a concrete key is accepted
and routed to the `g_` setter. -/
theorem c8_pattern_accepts_exactly_name_code_keys_witness :
    add_attribute sampleNode ("rope" ++ "_g") (.intV 7) false sampleGlobals =
      .ok { sampleNode with attrs := sampleNode.attrs ++ [("g_", "rope", .intV 7)] } ∧
    add_attribute sampleNode ("rope" ++ "_z") (.intV 7) false sampleGlobals =
      .ok { sampleNode with attrs := sampleNode.attrs ++ [("z_", "rope", .intV 7)] } ∧
    add_attribute sampleNode ("rope" ++ "_ty") (.intV 7) false sampleGlobals =
      .ok { sampleNode with attrs := sampleNode.attrs ++ [("ty_", "rope", .intV 7)] } :=
  c8_pattern_accepts_exactly_name_code_keys.2 sampleNode "rope" (.intV 7) sampleGlobals
    (by decide) (by decide) (by decide)

/-! ## The module's failure model -/

/-- The errors the shared attribute loop can produce. -/
def AttrLoopErr (e : PyErr) : Prop :=
  (∃ key, e = .valueError (invalidAttrMsg key)) ∨ e = .valueError tensorAttrMsg ∨
    e = .assertionError "x.numel() == 1"

theorem add_attribute_error (node : GNode) (key : String) (v : PyVal) (aten : Bool)
    (gl : Globals) (e : PyErr) (h : add_attribute node key v aten gl = .error e) :
    AttrLoopErr e := by
  unfold add_attribute at h
  split at h
  · injection h with h'
    exact .inl ⟨key, h'.symm⟩
  · split at h
    all_goals
      split at h
      · split at h
        · dsimp only at h
          split at h
          · injection h with h'
            exact .inr (.inl h'.symm)
          · split at h
            · injection h with h'
              exact .inr (.inr h'.symm)
            · simp at h
        · simp at h
      · simp at h

theorem applyAttrs_error (aten : Bool) (gl : Globals) :
    ∀ (l : Kwargs) (node : GNode) (e : PyErr),
      applyAttrs aten gl node l = .error e → AttrLoopErr e := by
  intro l
  induction l with
  | nil =>
    intro node e h
    simp [applyAttrs] at h
  | cons q rest ih =>
    intro node e h
    obtain ⟨k, v⟩ := q
    by_cases hk : k = "inplace"
    · rw [applyAttrs, if_pos hk] at h
      exact ih node e h
    · rw [applyAttrs, if_neg hk] at h
      split at h
      · rename_i e' heq
        injection h with h'
        exact h' ▸ add_attribute_error node k v aten gl e' heq
      · rename_i node2 heq
        exact ih node2 e h

theorem new_node_error (st : GraphState) (ns op : String) (outputs : Nat)
    (args : List (Option GValue)) (kwargs : Kwargs) (gl : Globals) (e : PyErr)
    (h : new_node st ns op outputs args kwargs gl = .error e) : AttrLoopErr e := by
  simp only [new_node, createNode] at h
  split at h
  · rename_i e' heq
    injection h with h'
    exact h' ▸ applyAttrs_error _ gl _ _ e' heq
  · simp at h

theorem graphOpBuild_error (st : GraphState) (ns op : String)
    (args : List (Option GValue)) (outputs : Nat) (kwargs : Kwargs) (gl : Globals)
    (e : PyErr) (h : graphOpBuild st ns op args outputs kwargs gl = .error e) :
    AttrLoopErr e := by
  simp only [graphOpBuild] at h
  split at h
  · rename_i e' heq
    injection h with h'
    exact h' ▸ new_node_error st ns op outputs args kwargs gl e' heq
  · split at h <;> simp at h

theorem graphOpCore_error (st : GraphState) (opname : String)
    (args : List (Option GValue)) (outputs : Nat) (kwargs : Kwargs) (gl : Globals)
    (e : PyErr) (h : graphOpCore st opname args outputs kwargs gl = .error e) :
    AttrLoopErr e ∨ e = .valueError unpackMsg := by
  simp only [graphOpCore] at h
  split at h
  · exact .inl (graphOpBuild_error st _ _ args outputs kwargs gl e h)
  · exact .inl (graphOpBuild_error st _ _ args outputs kwargs gl e h)
  · injection h with h'
    exact .inr h'.symm

theorem const_if_tensor_ok (st : GraphState) (arg : RawArg) (gl : Globals) :
    ∃ p, const_if_tensor st arg gl = .ok p := by
  cases arg with
  | value v => exact ⟨(st, some v), rfl⟩
  | py w =>
    cases hw : w.isNone with
    | true =>
      have hww : w = .noneV := by cases w <;> simp_all [PyVal.isNone]
      subst hww
      exact ⟨(st, none), rfl⟩
    | false =>
      rw [const_if_tensor_py st w gl hw, graphOpConst_eval st w gl hw]
      exact ⟨_, rfl⟩

theorem convertArgs_ok (gl : Globals) :
    ∀ (l : List RawArg) (st : GraphState), ∃ p, convertArgs st gl l = .ok p := by
  intro l
  induction l with
  | nil => exact fun st => ⟨(st, []), rfl⟩
  | cons a rest ih =>
    intro st
    obtain ⟨⟨st1, v⟩, h1⟩ := const_if_tensor_ok st a gl
    obtain ⟨⟨st2, vs⟩, h2⟩ := ih st1
    refine ⟨(st2, v :: vs), ?_⟩
    simp only [convertArgs, h1, h2]

theorem graph_op_error (st : GraphState) (opname : String) (rawArgs : List RawArg)
    (outputs : Nat) (kwargs : Kwargs) (gl : Globals) (e : PyErr)
    (h : graph_op st opname rawArgs outputs kwargs gl = .error e) :
    AttrLoopErr e ∨ e = .valueError unpackMsg := by
  simp only [graph_op] at h
  split at h
  · rename_i e' heq
    obtain ⟨p, hp⟩ := convertArgs_ok gl rawArgs st
    rw [hp] at heq
    simp at heq
  · rename_i st1 args heq
    exact graphOpCore_error st1 opname args outputs (noneFilter kwargs) gl e h

theorem block_op_error (st : GraphState) (opname : String) (args : List GValue)
    (kwargs : Kwargs) (gl : Globals) (e : PyErr)
    (h : block_op st opname args kwargs gl = .error e) : AttrLoopErr e := by
  simp only [block_op, createNode] at h
  split at h
  · rename_i e' heq
    injection h with h'
    exact h' ▸ applyAttrs_error _ gl _ _ e' heq
  · split at h <;> simp at h

theorem scalarDims_error (d : PyVal) (e : PyErr) (h : scalarDims d = .error e) :
    ∃ lb, e = .typeError lb := by
  cases d <;> simp only [scalarDims] at h <;> try simp at h
  case boolV b =>
    split at h
    · simp at h
    · injection h with h'
      exact ⟨_, h'.symm⟩
  case intV n =>
    split at h
    · simp at h
    · injection h with h'
      exact ⟨_, h'.symm⟩
  case floatV z =>
    split at h
    · simp at h
    · injection h with h'
      exact ⟨_, h'.symm⟩
  case strV s =>
    split at h
    · simp at h
    · injection h with h'
      exact ⟨_, h'.symm⟩
  case tensorV t =>
    split at h
    · simp at h
    · injection h with h'
      exact ⟨_, h'.symm⟩
  case listV ds =>
    split at h
    · simp at h
    · split at h
      · injection h with h'
        exact ⟨_, h'.symm⟩
      · split at h
        · simp at h
        · split at h
          · injection h with h'
            exact ⟨_, h'.symm⟩
          · split at h
            · injection h with h'
              exact ⟨_, h'.symm⟩
            · simp at h

theorem graph_constant_error (st : GraphState) (value : PyVal) (dims : PyVal)
    (type_ : String) (rawArgs : List RawArg) (kwargs : Kwargs) (gl : Globals)
    (e : PyErr)
    (h : graph_constant st value dims type_ rawArgs kwargs gl = .error e) :
    AttrLoopErr e ∨ e = .valueError unpackMsg ∨ e = .valueError unknownTypeMsg ∨
      (∃ lb, e = .assertionError lb) ∨ (∃ lb, e = .typeError lb) := by
  unfold graph_constant at h
  split at h
  · injection h with h'
    exact .inr (.inr (.inr (.inl ⟨_, h'.symm⟩)))
  · split at h
    · rename_i e' heq
      injection h with h'
      exact .inr (.inr (.inr (.inr (h' ▸ scalarDims_error dims e' heq))))
    · split at h
      · injection h with h'
        exact .inr (.inr (.inl h'.symm))
      · split at h
        all_goals
          dsimp only at h
          split at h
          · injection h with h'
            exact .inr (.inr (.inr (.inr ⟨_, h'.symm⟩)))
          · rcases graph_op_error st "Constant" rawArgs 1 _ gl e h with h2 | h2
            · exact .inl h2
            · exact .inr (.inl h2)

theorem attrLoopErr_valueError {m : String} (hE : AttrLoopErr (.valueError m)) :
    (∃ key, m = invalidAttrMsg key) ∨ m = tensorAttrMsg := by
  rcases hE with ⟨key, hk⟩ | hk | hk
  · injection hk with h'
    exact .inl ⟨key, h'⟩
  · injection hk with h'
    exact .inr h'
  · exact absurd hk (by simp)

/-- C7 (amended): a `ValueError` raised by the module occurs only at the
enumerated sites — an attribute key rejected by `_ATTR_PATTERN`, an
unsupported scalar/type (a tensor attribute under the Caffe2-ATen fallback, an
unknown type string in `graph_constant`), or the tuple unpacking of an opname
holding more than one `::` separator; any other failure the module can raise
is an `AssertionError` or `TypeError`, never a `ValueError`. -/
theorem c7_valueerror_only_from_enumerated_sites (c : EntryCall) (st : GraphState)
    (gl : Globals) (m : String) (h : runEntry c st gl = .error (.valueError m)) :
    (∃ key, m = invalidAttrMsg key) ∨ m = tensorAttrMsg ∨ m = unknownTypeMsg ∨
      m = unpackMsg := by
  cases c with
  | op opname rawArgs outputs kwargs =>
    rcases graph_op_error st opname rawArgs outputs kwargs gl _ h with h2 | h2
    · rcases attrLoopErr_valueError h2 with h3 | h3
      · exact .inl h3
      · exact .inr (.inl h3)
    · injection h2 with h'
      exact .inr (.inr (.inr h'))
  | aten operator rawArgs overloadName kwargs =>
    rcases graph_op_error st "aten::ATen" rawArgs 1
        (("operator_s", .strV operator) :: ("overload_name_s", .strV overloadName) :: kwargs)
        gl _ h with h2 | h2
    · rcases attrLoopErr_valueError h2 with h3 | h3
      · exact .inl h3
      · exact .inr (.inl h3)
    · injection h2 with h'
      exact .inr (.inr (.inr h'))
  | block opname args kwargs =>
    rcases attrLoopErr_valueError (block_op_error st opname args kwargs gl _ h) with h3 | h3
    · exact .inl h3
    · exact .inr (.inl h3)
  | constant value dims type_ rawArgs kwargs =>
    rcases graph_constant_error st value dims type_ rawArgs kwargs gl _ h with
      h2 | h2 | h2 | ⟨lb, h2⟩ | ⟨lb, h2⟩
    · rcases attrLoopErr_valueError h2 with h3 | h3
      · exact .inl h3
      · exact .inr (.inl h3)
    · injection h2 with h'
      exact .inr (.inr (.inr h'))
    · injection h2 with h'
      exact .inr (.inr (.inl h'))
    · exact absurd h2 (by simp)
    · exact absurd h2 (by simp)

theorem invalidAttrMsg_ne_unpackMsg (key : String) : invalidAttrMsg key ≠ unpackMsg := by
  intro h
  have h2 := congrArg String.length h
  simp only [invalidAttrMsg, String.length_append] at h2
  rw [show ("Invalid attribute specifier '" : String).length = 29 from by decide,
      show ("' names " : String).length = 8 from by decide,
      show (" must be suffixed with type, e.g. 'dim_i' or 'dims_i'" : String).length = 53
        from by decide,
      show (unpackMsg : String).length = 38 from by decide] at h2
  omega

/-- Counterexample to C7 as stated: `graph_op` with an opname holding two
`::` separators raises a `ValueError` ("too many values to unpack") from the
namespace unpacking — no attribute key is malformed (there are no attributes
at all) and no scalar/type specifier is involved. -/
theorem c7_counterexample_unpack_valueerror :
    runEntry (.op "a::b::c" [] 1 []) sampleState sampleGlobals =
      .error (.valueError unpackMsg) ∧
    (∀ key, unpackMsg ≠ invalidAttrMsg key) ∧
    unpackMsg ≠ tensorAttrMsg ∧ unpackMsg ≠ unknownTypeMsg :=
  ⟨rfl, fun key h => invalidAttrMsg_ne_unpackMsg key h.symm, by decide, by decide⟩

/-- Witness for C7 at a concrete erroring call: a malformed attribute key. -/
theorem c7_valueerror_only_from_enumerated_sites_witness :
    (∃ key, invalidAttrMsg "bogus" = invalidAttrMsg key) ∨
      invalidAttrMsg "bogus" = tensorAttrMsg ∨
      invalidAttrMsg "bogus" = unknownTypeMsg ∨ invalidAttrMsg "bogus" = unpackMsg :=
  c7_valueerror_only_from_enumerated_sites (.op "X" [] 1 [("bogus", .intV 1)])
    sampleState sampleGlobals (invalidAttrMsg "bogus") rfl
